import Mathlib

/-!
Verification of the geocode response cache subsystem of the
gmmerchandising-backend service: deterministic cache-key derivation
(`generateCacheKey`), coordinate quantization (`roundCoordinate`), the
Redis store abstraction (`RedisService.get/set/del/ping`), the response
cache middleware (hit enrichment and miss capture), the cache diagnostic
(`runDiagnostic`), pattern-based maintenance operations
(`clearByPattern`, `migrateToPerpetual`) and cache warmup
(`warmupCache`).

JavaScript values exchanged with the store are modelled by the `Json`
inductive; JavaScript objects are association lists of string keys in
insertion order, matching JS object field ordering.  Machine numbers are
modelled as exact rationals and 32-bit words as `Nat` reduced modulo
`2 ^ 32`.  JS library functions used by the code (`JSON.stringify`,
`JSON.parse`, `crypto.md5`, `Date#toISOString`/`getTime`) are given
executable models below; everything else is translated directly from the
source files.
-/

set_option autoImplicit false

/-- Model of a JavaScript JSON-serializable value. Objects keep their
fields as an ordered association list, as JS objects do. -/
inductive Json where
  | null
  | bool (b : Bool)
  | num (q : ℚ)
  | str (s : String)
  | arr (elems : List Json)
  | obj (fields : List (String × Json))

/-- Field access `o.k` on a JS value: `some v` when `o` is an object with
the field, `none` (JS `undefined`) otherwise. -/
def getField (j : Json) (k : String) : Option Json :=
  match j with
  | Json.obj fs => List.lookup k fs
  | _ => none

/-- The fields of a JS object; spreading a non-object produces no fields,
matching `\x7b...v\x7d` semantics for primitives. -/
def objFields (j : Json) : List (String × Json) :=
  match j with
  | Json.obj fs => fs
  | _ => []

/-- JS property assignment `o[k] = v`: replaces the (first) existing
binding in place, otherwise appends, matching JS key ordering. -/
def objUpsert : List (String × Json) → String → Json → List (String × Json)
  | [], k, v => [(k, v)]
  | p :: rest, k, v => if p.1 = k then (k, v) :: rest else p :: objUpsert rest k v

/-- JS `delete o[k]`: removes the binding for `k`. -/
def removeField (fs : List (String × Json)) (k : String) : List (String × Json) :=
  fs.filter (fun p => !(p.1 == k))

/-- JS truthiness of a value: `null`, `false`, `0` and the empty string
are falsy, everything else is truthy. -/
def jsTruthy : Json → Bool
  | Json.null => false
  | Json.bool b => b
  | Json.num q => !(q == 0)
  | Json.str s => !(s == "")
  | Json.arr _ => true
  | Json.obj _ => true

/-- Truthiness of an optional (possibly `undefined`) JS value. -/
def jsTruthyOpt : Option Json → Bool
  | some v => jsTruthy v
  | none => false

/-- Integer part of a nonnegative rational, used for decimal printing. -/
def ratIntPart (a : ℚ) : ℕ := a.num.toNat / a.den

/-- Decimal digits of the fractional part of a rational in `[0, 1)`,
bounded by fuel (JS prints finitely many digits). -/
def fracDigitChars : ℕ → ℚ → List Char
  | 0, _ => []
  | fuel + 1, q =>
    if q = 0 then []
    else
      let x := q * 10
      let d := ratIntPart x
      Char.ofNat (48 + d % 10) :: fracDigitChars fuel (x - (d : ℚ))

/-- Models JS number-to-string conversion for the exact rationals that
appear in this system (decimal rendering without trailing zeros). -/
def ratToDecimalString (q : ℚ) : String :=
  let sign := if q < 0 then "-" else ""
  let a := if q < 0 then -q else q
  let ip := ratIntPart a
  let fd := fracDigitChars 20 (a - (ip : ℚ))
  sign ++ Nat.repr ip ++ (if fd.isEmpty then "" else "." ++ String.mk fd)

/-- JSON string escaping for the characters JS always escapes. -/
def escapeChar (c : Char) : List Char :=
  if c = '"' then ['\\', '"']
  else if c = '\\' then ['\\', '\\']
  else if c = '\n' then ['\\', 'n']
  else if c = '\t' then ['\\', 't']
  else if c = '\r' then ['\\', 'r']
  else [c]

mutual

/-- Models `JSON.stringify` on the `Json` value model (stable field
ordering: object fields are emitted in insertion order, as JS does). -/
def jsonSerialize : Json → String
  | Json.null => "null"
  | Json.bool true => "true"
  | Json.bool false => "false"
  | Json.num q => ratToDecimalString q
  | Json.str s => "\"" ++ String.mk (s.data.flatMap escapeChar) ++ "\""
  | Json.arr l => "[" ++ serializeElems l ++ "]"
  | Json.obj fs => "\x7b" ++ serializeFields fs ++ "\x7d"

/-- Comma-separated serialization of array elements. -/
def serializeElems : List Json → String
  | [] => ""
  | [j] => jsonSerialize j
  | j :: rest => jsonSerialize j ++ "," ++ serializeElems rest

/-- Comma-separated serialization of object fields. -/
def serializeFields : List (String × Json) → String
  | [] => ""
  | [(k, v)] => "\"" ++ String.mk (k.data.flatMap escapeChar) ++ "\":" ++ jsonSerialize v
  | (k, v) :: rest =>
    "\"" ++ String.mk (k.data.flatMap escapeChar) ++ "\":" ++ jsonSerialize v ++ "," ++
      serializeFields rest

end

/-- The opening-brace character, written via its code point. -/
def lbraceChar : Char := Char.ofNat 123

/-- The closing-brace character, written via its code point. -/
def rbraceChar : Char := Char.ofNat 125

/-- Skip JSON whitespace. -/
def skipWs : List Char → List Char
  | [] => []
  | c :: rest =>
    if c = ' ' ∨ c = '\n' ∨ c = '\t' ∨ c = '\r' then skipWs rest else c :: rest

/-- Decode one hex digit. -/
def hexVal (c : Char) : Option ℕ :=
  if '0' ≤ c ∧ c ≤ '9' then some (c.toNat - 48)
  else if 'a' ≤ c ∧ c ≤ 'f' then some (c.toNat - 87)
  else if 'A' ≤ c ∧ c ≤ 'F' then some (c.toNat - 55)
  else none

/-- Parse the body of a JSON string literal (after the opening quote),
handling the standard escapes; fails on malformed input, modelling the
exception thrown by `JSON.parse`. -/
def pStringBody : ℕ → List Char → Option (List Char × List Char)
  | 0, _ => none
  | _ + 1, [] => none
  | fuel + 1, c :: rest =>
    if c = '"' then some ([], rest)
    else if c = '\\' then
      match rest with
      | [] => none
      | e :: rest2 =>
        let dec : Option (Char × List Char) :=
          if e = '"' then some ('"', rest2)
          else if e = '\\' then some ('\\', rest2)
          else if e = '/' then some ('/', rest2)
          else if e = 'n' then some ('\n', rest2)
          else if e = 't' then some ('\t', rest2)
          else if e = 'r' then some ('\r', rest2)
          else if e = 'b' then some (Char.ofNat 8, rest2)
          else if e = 'f' then some (Char.ofNat 12, rest2)
          else if e = 'u' then
            match rest2 with
            | h1 :: h2 :: h3 :: h4 :: rest3 =>
              match hexVal h1, hexVal h2, hexVal h3, hexVal h4 with
              | some a, some b, some c3, some d =>
                some (Char.ofNat (4096 * a + 256 * b + 16 * c3 + d), rest3)
              | _, _, _, _ => none
            | _ => none
          else none
        match dec with
        | some (ch, rest3) =>
          match pStringBody fuel rest3 with
          | some (cs, tail) => some (ch :: cs, tail)
          | none => none
        | none => none
    else
      match pStringBody fuel rest with
      | some (cs, tail) => some (c :: cs, tail)
      | none => none

/-- Take a run of decimal digits, returning its value and length. -/
def takeDigits : List Char → ℕ → ℕ → (ℕ × ℕ × List Char)
  | [], acc, cnt => (acc, cnt, [])
  | c :: rest, acc, cnt =>
    if '0' ≤ c ∧ c ≤ '9' then takeDigits rest (acc * 10 + (c.toNat - 48)) (cnt + 1)
    else (acc, cnt, c :: rest)

/-- Parse the optional exponent of a JSON number and finish the value. -/
def pNumTail (base : ℚ) (neg : Bool) (cs3 : List Char) : Option (ℚ × List Char) :=
  let (expRes : Option (ℤ × List Char)) :=
    match cs3 with
    | 'e' :: rest | 'E' :: rest =>
      let (esign, rest2) :=
        match rest with
        | '-' :: r => ((-1 : ℤ), r)
        | '+' :: r => ((1 : ℤ), r)
        | _ => ((1 : ℤ), rest)
      let (ev, ec, rest3) := takeDigits rest2 0 0
      if ec = 0 then none else some (esign * ev, rest3)
    | _ => some (0, cs3)
  match expRes with
  | none => none
  | some (ex, cs4) =>
    let v := base * (10 : ℚ) ^ ex
    some (if neg then -v else v, cs4)

/-- Parse a JSON number (integer part, optional fraction, optional
exponent) as an exact rational. -/
def pNumber (cs : List Char) : Option (ℚ × List Char) :=
  let (neg, cs1) :=
    match cs with
    | '-' :: rest => (true, rest)
    | _ => (false, cs)
  let (ip, ipCnt, cs2) := takeDigits cs1 0 0
  if ipCnt = 0 then none
  else
    match cs2 with
    | '.' :: rest =>
      let (fracNum, fracCnt, cs3) := takeDigits rest 0 0
      if fracCnt = 0 then none
      else pNumTail ((ip : ℚ) + (fracNum : ℚ) / ((10 : ℚ) ^ fracCnt)) neg cs3
    | _ => pNumTail (ip : ℚ) neg cs2

mutual

/-- Fueled recursive-descent model of `JSON.parse` for one value;
returns the value and the unconsumed input, or `none` for a parse error
(the exception thrown by `JSON.parse`). -/
def pValue : ℕ → List Char → Option (Json × List Char)
  | 0, _ => none
  | fuel + 1, cs =>
    match skipWs cs with
    | [] => none
    | c :: rest =>
      if c = 'n' then
        match rest with
        | 'u' :: 'l' :: 'l' :: tail => some (Json.null, tail)
        | _ => none
      else if c = 't' then
        match rest with
        | 'r' :: 'u' :: 'e' :: tail => some (Json.bool true, tail)
        | _ => none
      else if c = 'f' then
        match rest with
        | 'a' :: 'l' :: 's' :: 'e' :: tail => some (Json.bool false, tail)
        | _ => none
      else if c = '"' then
        match pStringBody (rest.length + 1) rest with
        | some (cs2, tail) => some (Json.str (String.mk cs2), tail)
        | none => none
      else if c = '[' then
        match skipWs rest with
        | ']' :: tail => some (Json.arr [], tail)
        | cs2 =>
          match pElems fuel cs2 with
          | some (l, tail) => some (Json.arr l, tail)
          | none => none
      else if c = lbraceChar then
        match skipWs rest with
        | d :: tail =>
          if d = rbraceChar then some (Json.obj [], tail)
          else
            match pFields fuel (d :: tail) with
            | some (fs, tail2) => some (Json.obj fs, tail2)
            | none => none
        | [] => none
      else
        match pNumber (c :: rest) with
        | some (q, tail) => some (Json.num q, tail)
        | none => none

/-- Parse one-or-more comma-separated array elements up to `]`. -/
def pElems : ℕ → List Char → Option (List Json × List Char)
  | 0, _ => none
  | fuel + 1, cs =>
    match pValue fuel cs with
    | none => none
    | some (j, rest) =>
      match skipWs rest with
      | ',' :: rest2 =>
        match pElems fuel rest2 with
        | some (l, tail) => some (j :: l, tail)
        | none => none
      | ']' :: tail => some ([j], tail)
      | _ => none

/-- Parse one-or-more comma-separated object fields up to the closing
brace. -/
def pFields : ℕ → List Char → Option (List (String × Json) × List Char)
  | 0, _ => none
  | fuel + 1, cs =>
    match skipWs cs with
    | '"' :: rest =>
      match pStringBody (rest.length + 1) rest with
      | none => none
      | some (kcs, rest2) =>
        match skipWs rest2 with
        | ':' :: rest3 =>
          match pValue fuel rest3 with
          | none => none
          | some (v, rest4) =>
            match skipWs rest4 with
            | ',' :: rest5 =>
              match pFields fuel rest5 with
              | some (fs, tail) => some ((String.mk kcs, v) :: fs, tail)
              | none => none
            | d :: tail =>
              if d = rbraceChar then some ([(String.mk kcs, v)], tail)
              else none
            | [] => none
        | _ => none
    | _ => none

end

/-- Models `JSON.parse`: `some` on success, `none` when `JSON.parse`
would throw a `SyntaxError`. -/
def jsonParse (s : String) : Option Json :=
  match pValue (s.length + 1) s.data with
  | some (j, rest) => if (skipWs rest).isEmpty then some j else none
  | none => none

/-- Models `Date#toISOString` as an injective rendering of a millisecond
timestamp; the code only ever round-trips it through
`new Date(s).getTime()`, so the decimal numeral of the timestamp is used
as the concrete representation. -/
def isoOfMs (ms : ℕ) : String :=
  String.mk ((Nat.digits 10 ms).reverse.map (fun d => Char.ofNat (48 + d)))

/-- Models `new Date(s).getTime()` on strings produced by `isoOfMs`. -/
def msOfIso (s : String) : ℕ :=
  Nat.ofDigits 10 ((s.data.map (fun c => c.toNat - 48)).reverse)

theorem msOfIso_isoOfMs (ms : ℕ) : msOfIso (isoOfMs ms) = ms := by
  unfold msOfIso isoOfMs
  have hmap : ((Nat.digits 10 ms).reverse.map (fun d => Char.ofNat (48 + d))).map
      (fun c => c.toNat - 48) = (Nat.digits 10 ms).reverse := by
    rw [List.map_map]
    have hid : ∀ d ∈ (Nat.digits 10 ms).reverse,
        ((fun c => Char.toNat c - 48) ∘ fun d => Char.ofNat (48 + d)) d = d := by
      intro d hd
      have hdlt : d < 10 := Nat.digits_lt_base (by norm_num) (List.mem_reverse.mp hd)
      interval_cases d <;> rfl
    calc (Nat.digits 10 ms).reverse.map ((fun c => Char.toNat c - 48) ∘ fun d => Char.ofNat (48 + d))
        = (Nat.digits 10 ms).reverse.map id := List.map_congr_left hid
      _ = (Nat.digits 10 ms).reverse := List.map_id _
  simp only [String.data]
  rw [hmap, List.reverse_reverse, Nat.ofDigits_digits]

/-- Truncation to a 32-bit word. -/
def w32 (n : ℕ) : ℕ := n % 4294967296

/-- 32-bit bitwise complement. -/
def bnot32 (n : ℕ) : ℕ := 4294967295 - w32 n

/-- 32-bit left rotation. -/
def rotl32 (x s : ℕ) : ℕ := w32 (w32 x <<< s) + (w32 x >>> (32 - s))

/-- The 64 MD5 sine-derived round constants (RFC 1321). -/
def md5K : List ℕ :=
  [0xd76aa478, 0xe8c7b756, 0x242070db, 0xc1bdceee,
   0xf57c0faf, 0x4787c62a, 0xa8304613, 0xfd469501,
   0x698098d8, 0x8b44f7af, 0xffff5bb1, 0x895cd7be,
   0x6b901122, 0xfd987193, 0xa679438e, 0x49b40821,
   0xf61e2562, 0xc040b340, 0x265e5a51, 0xe9b6c7aa,
   0xd62f105d, 0x02441453, 0xd8a1e681, 0xe7d3fbc8,
   0x21e1cde6, 0xc33707d6, 0xf4d50d87, 0x455a14ed,
   0xa9e3e905, 0xfcefa3f8, 0x676f02d9, 0x8d2a4c8a,
   0xfffa3942, 0x8771f681, 0x6d9d6122, 0xfde5380c,
   0xa4beea44, 0x4bdecfa9, 0xf6bb4b60, 0xbebfbc70,
   0x289b7ec6, 0xeaa127fa, 0xd4ef3085, 0x04881d05,
   0xd9d4d039, 0xe6db99e5, 0x1fa27cf8, 0xc4ac5665,
   0xf4292244, 0x432aff97, 0xab9423a7, 0xfc93a039,
   0x655b59c3, 0x8f0ccc92, 0xffeff47d, 0x85845dd1,
   0x6fa87e4f, 0xfe2ce6e0, 0xa3014314, 0x4e0811a1,
   0xf7537e82, 0xbd3af235, 0x2ad7d2bb, 0xeb86d391]

/-- The 64 MD5 per-round left-rotation amounts (RFC 1321). -/
def md5S : List ℕ :=
  [7, 12, 17, 22, 7, 12, 17, 22, 7, 12, 17, 22, 7, 12, 17, 22,
   5, 9, 14, 20, 5, 9, 14, 20, 5, 9, 14, 20, 5, 9, 14, 20,
   4, 11, 16, 23, 4, 11, 16, 23, 4, 11, 16, 23, 4, 11, 16, 23,
   6, 10, 15, 21, 6, 10, 15, 21, 6, 10, 15, 21, 6, 10, 15, 21]

/-- MD5 padding: append `0x80`, zero bytes to 56 mod 64, then the
64-bit little-endian bit length. -/
def md5Pad (msg : List ℕ) : List ℕ :=
  let len := msg.length
  let zeros := (119 - len % 64) % 64
  let bitLen := (len * 8) % 18446744073709551616
  msg ++ [128] ++ List.replicate zeros 0 ++
    ((List.range 8).map (fun i => (bitLen >>> (8 * i)) % 256))

/-- Little-endian 32-bit word from four bytes of a chunk. -/
def leWord (bytes : List ℕ) (off : ℕ) : ℕ :=
  bytes.getD off 0 + 256 * bytes.getD (off + 1) 0 +
    65536 * bytes.getD (off + 2) 0 + 16777216 * bytes.getD (off + 3) 0

/-- One MD5 round step on the `(a, b, c, d)` state. -/
def md5Step (chunk : List ℕ) (st : ℕ × ℕ × ℕ × ℕ) (i : ℕ) : ℕ × ℕ × ℕ × ℕ :=
  let (a, b, c, d) := st
  let (f, g) :=
    if i < 16 then ((b &&& c) ||| (bnot32 b &&& d), i)
    else if i < 32 then ((d &&& b) ||| (bnot32 d &&& c), (5 * i + 1) % 16)
    else if i < 48 then (b ^^^ c ^^^ d, (3 * i + 5) % 16)
    else (c ^^^ (b ||| bnot32 d), (7 * i) % 16)
  let f2 := w32 (f + a + md5K.getD i 0 + leWord chunk (4 * g))
  (d, w32 (b + rotl32 f2 (md5S.getD i 0)), b, c)

/-- Process one 64-byte chunk, updating the running digest state. -/
def md5Chunk (st : ℕ × ℕ × ℕ × ℕ) (chunk : List ℕ) : ℕ × ℕ × ℕ × ℕ :=
  let (a0, b0, c0, d0) := st
  let (a, b, c, d) := (List.range 64).foldl (md5Step chunk) (a0, b0, c0, d0)
  (w32 (a0 + a), w32 (b0 + b), w32 (c0 + c), w32 (d0 + d))

/-- Split a byte list into 64-byte chunks (fuelled by the list length). -/
def chunksAux : ℕ → List ℕ → List (List ℕ)
  | 0, _ => []
  | n + 1, l => if l.isEmpty then [] else l.take 64 :: chunksAux n (l.drop 64)

/-- The 64-byte chunks of a byte list. -/
def chunks64 (l : List ℕ) : List (List ℕ) := chunksAux l.length l

/-- The four little-endian bytes of a 32-bit word. -/
def wordBytesLE (w : ℕ) : List ℕ :=
  [w % 256, w / 256 % 256, w / 65536 % 256, w / 16777216 % 256]

/-- The 16-byte MD5 digest of a byte message (RFC 1321). -/
def md5Digest (msg : List ℕ) : List ℕ :=
  let (a, b, c, d) :=
    (chunks64 (md5Pad msg)).foldl md5Chunk (0x67452301, 0xefcdab89, 0x98badcfe, 0x10325476)
  wordBytesLE a ++ wordBytesLE b ++ wordBytesLE c ++ wordBytesLE d

/-- Lowercase hex digit for `n % 16`. -/
def hexDigit (n : ℕ) : Char :=
  let m := n % 16
  if m < 10 then Char.ofNat (48 + m) else Char.ofNat (87 + m)

/-- Two lowercase hex digits of a byte. -/
def byteHex (b : ℕ) : List Char := [hexDigit (b / 16), hexDigit b]

/-- UTF-8 encoding of one character. -/
def utf8Encode (c : Char) : List ℕ :=
  let n := c.toNat
  if n < 128 then [n]
  else if n < 2048 then [192 + n / 64, 128 + n % 64]
  else if n < 65536 then [224 + n / 4096, 128 + n / 64 % 64, 128 + n % 64]
  else [240 + n / 262144, 128 + n / 4096 % 64, 128 + n / 64 % 64, 128 + n % 64]

/-- The UTF-8 bytes of a string, as `crypto.createHash('md5').update`
consumes them. -/
def strBytes (s : String) : List ℕ := s.data.flatMap utf8Encode

/-- Models `crypto.createHash('md5').update(s).digest('hex')`: the
32-character lowercase hex rendering of the 16-byte MD5 digest. -/
def md5Hex (s : String) : String :=
  String.mk ((md5Digest (strBytes s)).flatMap byteHex)

theorem length_md5Digest (msg : List ℕ) : (md5Digest msg).length = 16 := by
  unfold md5Digest
  obtain ⟨a, b, c, d⟩ :=
    (chunks64 (md5Pad msg)).foldl md5Chunk (0x67452301, 0xefcdab89, 0x98badcfe, 0x10325476)
  simp [wordBytesLE]

theorem length_flatMap_byteHex (l : List ℕ) : (l.flatMap byteHex).length = 2 * l.length := by
  induction l with
  | nil => rfl
  | cons x xs ih => simp [byteHex, ih]; ring

theorem length_md5Hex (s : String) : (md5Hex s).length = 32 := by
  show (String.mk ((md5Digest (strBytes s)).flatMap byteHex)).length = 32
  have h1 : (String.mk ((md5Digest (strBytes s)).flatMap byteHex)).length
      = ((md5Digest (strBytes s)).flatMap byteHex).length := rfl
  rw [h1, length_flatMap_byteHex, length_md5Digest]

/-- Every character of an `md5Hex` digest is a lowercase hex digit. -/
def isHexChar (c : Char) : Prop := c.isDigit ∨ ('a' ≤ c ∧ c ≤ 'f')

theorem isHexChar_hexDigit (n : ℕ) : isHexChar (hexDigit n) := by
  unfold hexDigit isHexChar
  have h : n % 16 < 16 := Nat.mod_lt _ (by norm_num)
  interval_cases h2 : n % 16 <;> simp_all

theorem isHexChar_mem_md5Hex (s : String) (c : Char) (hc : c ∈ (md5Hex s).data) :
    isHexChar c := by
  have hdat : (md5Hex s).data = (md5Digest (strBytes s)).flatMap byteHex := rfl
  rw [hdat] at hc
  obtain ⟨b, _, hcb⟩ := List.mem_flatMap.mp hc
  unfold byteHex at hcb
  simp only [List.mem_cons, List.not_mem_nil, or_false] at hcb
  rcases hcb with h | h
  · exact h ▸ isHexChar_hexDigit _
  · exact h ▸ isHexChar_hexDigit _

/-- Models JS `Math.round`: round half toward positive infinity. -/
def mathRound (x : ℚ) : ℤ := ⌊x + 1 / 2⌋

/-- `roundCoordinate(coordinate, decimalPlaces)` from
`src/utils/coordinateUtils.js`: `Math.round(coordinate * 10^dp) / 10^dp`
(the numeric-input check always passes in this rational model). -/
def roundCoordinate (coordinate : ℚ) (decimalPlaces : ℕ) : ℚ :=
  let multiplier : ℚ := 10 ^ decimalPlaces
  (mathRound (coordinate * multiplier) : ℚ) / multiplier

/-- `roundCoordinates(latitude, longitude, decimalPlaces)` from
`src/utils/coordinateUtils.js`. -/
def roundCoordinates (latitude longitude : ℚ) (decimalPlaces : ℕ) : ℚ × ℚ :=
  (roundCoordinate latitude decimalPlaces, roundCoordinate longitude decimalPlaces)

/-- The key layout shared by every `generateCacheKey` revision:
`prefix:hash`, or `prefix:user:userId:hash` when `userId` is truthy
(JS `if (userId)`: a present-but-empty string behaves as absent). -/
def mkCacheKey (pfx : String) (hash : String) (userId : Option String) : String :=
  match userId with
  | some uid => if uid = "" then pfx ++ ":" ++ hash else pfx ++ ":user:" ++ uid ++ ":" ++ hash
  | none => pfx ++ ":" ++ hash

namespace V1

/-- `generateCacheKey(prefix, data, userId)` as in
`src/middleware/validation.js` lines 391-399: MD5 of
`JSON.stringify(data)`, concatenated behind the prefix (and the user
segment when `userId` is truthy). -/
def generateCacheKey (pfx : String) (data : Json) (userId : Option String) : String :=
  let dataString := jsonSerialize data
  let hash := md5Hex dataString
  mkCacheKey pfx hash userId

end V1

/-- `generateCacheKey(prefix, data, userId)` as in
`src/middleware/validation.js` lines 639-653 (the coordinate-quantizing
revision): when `data.latitude` and `data.longitude` are both defined the
coordinates are first rounded to 2 decimals; `none` models the exception
`roundCoordinates` throws when a defined coordinate is not a number. -/
def generateCacheKey (pfx : String) (data : Json) (userId : Option String) : Option String :=
  match getField data "latitude", getField data "longitude" with
  | some (Json.num la), some (Json.num lo) =>
    let rounded := roundCoordinates la lo 2
    let data2 := Json.obj (objUpsert (objUpsert (objFields data) "latitude" (Json.num rounded.1))
      "longitude" (Json.num rounded.2))
    some (mkCacheKey pfx (md5Hex (jsonSerialize data2)) userId)
  | some _, some _ => none
  | _, _ => some (mkCacheKey pfx (md5Hex (jsonSerialize data)) userId)

/-- The full reverse-geocode key pipeline: `validateCoordinates` rounds
the request coordinates to 3 decimals (`src/middleware/validation.js`
line 38) and the cache middleware then derives the key from
`\x7b latitude, longitude \x7d` with `generateCacheKey`, which rounds to
2 decimals. -/
def reverseGeocodeCacheKey (lat lng : ℚ) (userId : Option String) : Option String :=
  let c := roundCoordinates lat lng 3
  generateCacheKey "reverse-geocode"
    (Json.obj [("latitude", Json.num c.1), ("longitude", Json.num c.2)]) userId

/-- What the Redis client returns for a stored key: a string (possibly
invalid JSON), an already-parsed non-null object (Upstash sometimes
returns parsed JSON), or a value of an unexpected type. -/
inductive RawValue where
  | str (s : String)
  | obj (j : Json)
  | other

/-- One stored entry: the raw value the client will return, plus the
absolute expiration deadline (`none` = perpetual, as for Redis `SET`
without `EX`). -/
structure Entry where
  raw : RawValue
  expireAt : Option ℕ

/-- The state of the `RedisService` singleton together with its backend:
`isEnabled`/client initialization (`isEnabled && client !== null`),
whether backend calls currently raise errors (caught by every operation),
whether the server answers `PING` with `PONG`, and the keyspace. -/
structure RedisState where
  enabled : Bool
  failing : Bool
  pingOk : Bool
  store : List (String × Entry)

/-- Redis `SET`: overwrite any existing entry at the key. -/
def storeInsert (l : List (String × Entry)) (k : String) (e : Entry) :
    List (String × Entry) :=
  (k, e) :: l.filter (fun p => !(p.1 == k))

/-- Redis `GET` at the backend: the raw value, honoring expiration. -/
def storeLookup (st : RedisState) (key : String) (now : ℕ) : Option RawValue :=
  match List.lookup key st.store with
  | none => none
  | some e =>
    match e.expireAt with
    | some t => if t ≤ now then none else some e.raw
    | none => some e.raw

/-- The value the service writes to the backend:
`typeof data === 'string' ? data : JSON.stringify(data)`. -/
def serializeForRedis (data : Json) : String :=
  match data with
  | Json.str s => s
  | j => jsonSerialize j

namespace RedisService

/-- `isAvailable()`: `this.isEnabled && this.client !== null`. -/
def isAvailable (st : RedisState) : Bool := st.enabled

/-- `get(key)` from the canonical `RedisService` revision: `null` when
disabled; backend errors caught and turned into `null`; string payloads
are `JSON.parse`d with parse errors yielding `null`; already-parsed
objects returned as-is; unexpected types yield `null`. -/
def get (st : RedisState) (now : ℕ) (key : String) : Option Json :=
  if !st.enabled then none
  else if st.failing then none
  else
    match storeLookup st key now with
    | none => none
    | some (RawValue.str s) => if s = "" then none else jsonParse s
    | some (RawValue.obj j) => some j
    | some RawValue.other => none

/-- `set(key, data, ttl)` from the canonical `RedisService` revision:
`false` when disabled or on a backend error; `ttl == 0` stores with no
expiration (perpetual), a positive `ttl` stores with deadline
`now + ttl`; strings are stored verbatim, other values serialized. -/
def set (st : RedisState) (now : ℕ) (key : String) (data : Json) (ttl : ℕ) :
    RedisState × Bool :=
  if !st.enabled then (st, false)
  else if st.failing then (st, false)
  else
    let serializedData := serializeForRedis data
    let e : Entry :=
      if ttl = 0 then ⟨RawValue.str serializedData, none⟩
      else ⟨RawValue.str serializedData, some (now + ttl)⟩
    ({ st with store := storeInsert st.store key e }, true)

/-- `del(key)`: `false` when disabled or on a backend error, otherwise
removes the entry and reports whether one was (unexpired and) present. -/
def del (st : RedisState) (now : ℕ) (key : String) : RedisState × Bool :=
  if !st.enabled then (st, false)
  else if st.failing then (st, false)
  else
    ({ st with store := st.store.filter (fun p => !(p.1 == key)) },
      (storeLookup st key now).isSome)

/-- `ping()`: `false` when disabled or erroring, otherwise whether the
server answered `PONG`. -/
def ping (st : RedisState) : Bool :=
  st.enabled && !st.failing && st.pingOk

end RedisService

/-- Truthiness of `data.success` as tested by the miss-capture override
`res.statusCode === 200 && data.success`. -/
def successFlag (data : Json) : Bool := jsTruthyOpt (getField data "success")

/-- The document the miss-capture path writes
(`src/middleware/validation.js` lines 745-757): the response stripped of
`cached`, `cacheTimestamp` and `cacheMetadata`, with a fresh
`cacheMetadata` object (`cachedAt = now`, `perpetual`, `cachePrefix`,
`originalTtl`) assigned afterward. -/
def responseToCache (data : Json) (now : ℕ) (pfx : String) (ttl : ℕ) (perpetual : Bool) :
    Json :=
  let fs := removeField (removeField (removeField (objFields data) "cached") "cacheTimestamp")
    "cacheMetadata"
  Json.obj (objUpsert fs "cacheMetadata" (Json.obj
    [("cachedAt", Json.str (isoOfMs now)),
     ("perpetual", Json.bool perpetual),
     ("cachePrefix", Json.str pfx),
     ("originalTtl", Json.num (ttl : ℚ))]))

/-- The overridden `res.json` of the perpetual-aware
`cacheGeocodingResponse` middleware (`src/middleware/validation.js`
lines 742-771) on a cache miss: cache the response exactly when the
status is 200 and `data.success` is truthy (fire-and-forget, the set
result is ignored), then forward the original data unchanged. -/
def captureResponse (st : RedisState) (now : ℕ) (pfx : String) (cacheKey : String)
    (ttl : ℕ) (perpetual : Bool) (statusCode : ℕ) (data : Json) :
    RedisState × ℕ × Json :=
  if statusCode == 200 && successFlag data then
    let rtc := responseToCache data now pfx ttl perpetual
    let finalTtl := if perpetual then 0 else ttl
    ((RedisService.set st now cacheKey rtc finalTtl).1, statusCode, data)
  else (st, statusCode, data)

/-- `cachedResponse.cacheMetadata?.perpetual || false` on the hit path. -/
def perpFlag (cachedResponse : Json) : Bool :=
  match getField cachedResponse "cacheMetadata" with
  | some m =>
    match getField m "perpetual" with
    | some v => jsTruthy v
    | none => false
  | none => false

/-- `Date.now() - new Date(meta.cachedAt).getTime()` guarded by the
truthiness of `cachedResponse.cacheMetadata`; a missing or non-string
`cachedAt` (JS `NaN`) is modelled as epoch 0 and is excluded by the
hypotheses of the theorems that use this. -/
def hitCacheAgeMs (cachedResponse : Json) (now : ℕ) : ℤ :=
  match getField cachedResponse "cacheMetadata" with
  | some m =>
    if jsTruthy m then
      (now : ℤ) -
        (match getField m "cachedAt" with
         | some (Json.str s) => (msOfIso s : ℤ)
         | _ => 0)
    else 0
  | none => 0

/-- The response body served on a cache hit
(`src/middleware/validation.js` lines 725-735): the cached payload
spread together with `cached: true`, a serve timestamp, and a
`cacheMetadata` object extended with `isPerpetual`, `cacheAge` (in whole
seconds, `Math.floor(ms / 1000)`) and `servedAt`. -/
def hitBody (cachedResponse : Json) (now : ℕ) : Json :=
  let metaFs :=
    match getField cachedResponse "cacheMetadata" with
    | some m => objFields m
    | none => []
  let newMeta := Json.obj (objUpsert (objUpsert (objUpsert metaFs
    "isPerpetual" (Json.bool (perpFlag cachedResponse)))
    "cacheAge" (Json.num ((Int.fdiv (hitCacheAgeMs cachedResponse now) 1000 : ℤ) : ℚ)))
    "servedAt" (Json.str (isoOfMs now)))
  Json.obj (objUpsert (objUpsert (objUpsert (objFields cachedResponse)
    "cached" (Json.bool true))
    "cacheTimestamp" (Json.str (isoOfMs now)))
    "cacheMetadata" newMeta)

/-- The hit path of the middleware: answer `res.status(200).json(...)`
with the enriched body; no store operation is performed. -/
def serveHit (st : RedisState) (cachedResponse : Json) (now : ℕ) :
    RedisState × ℕ × Json :=
  (st, 200, hitBody cachedResponse now)

/-- Result record of `CacheDiagnostic.runDiagnostic`
(`src/utils/cacheManager.js` lines 179-249). -/
structure DiagResults where
  redisAvailable : Bool
  pingSuccess : Bool
  setSuccess : Bool
  getSuccess : Bool
  dataIntegrity : Bool
  errors : List String

/-- The synthetic key used by the diagnostic. -/
def diagnosticKey (now : ℕ) : String := "diagnostic:" ++ Nat.repr now

/-- The synthetic payload used by the diagnostic. -/
def diagnosticData (now : ℕ) : Json :=
  Json.obj
    [("test", Json.str "data"),
     ("timestamp", Json.str (isoOfMs now)),
     ("number", Json.num 12345),
     ("boolean", Json.bool true),
     ("nested", Json.obj [("value", Json.str "nested test")])]

/-- `CacheDiagnostic.runDiagnostic()` from `src/utils/cacheManager.js`
lines 179-249: availability check, ping, a 60-second test `set`, a
read-back with a stringify-comparison integrity check, and cleanup of
the synthetic key before returning. Every `RedisService` operation
catches backend errors internally, so the surrounding try/catch never
fires in this model. -/
def runDiagnostic (st : RedisState) (now : ℕ) : DiagResults × RedisState :=
  if !(RedisService.isAvailable st) then
    (⟨false, false, false, false, false,
      ["Redis service is not available - check environment variables"]⟩, st)
  else
    let pingSuccess := RedisService.ping st
    let errs1 := if pingSuccess then [] else ["Redis ping failed - check connection"]
    let testKey := diagnosticKey now
    let testData := diagnosticData now
    let (st1, setSuccess) := RedisService.set st now testKey testData 60
    let errs2 := errs1 ++ (if setSuccess then [] else ["Failed to set test data in Redis"])
    if setSuccess then
      let retrievedData := RedisService.get st1 now testKey
      let getSuccess := retrievedData.isSome
      let dataIntegrity :=
        match retrievedData with
        | some j => jsonSerialize testData == jsonSerialize j
        | none => false
      let errs3 := errs2 ++
        (if getSuccess then
          (if dataIntegrity then []
           else ["Data integrity check failed - retrieved data does not match stored data"])
         else ["Failed to retrieve test data from Redis"])
      let (st2, _) := RedisService.del st1 now testKey
      (⟨true, pingSuccess, setSuccess, getSuccess, dataIntegrity, errs3⟩, st2)
    else
      (⟨true, pingSuccess, false, false, false, errs2⟩, st1)

/-- Result of `CacheManager.clearByPattern`. -/
structure ClearResult where
  success : Bool
  message : String

/-- `CacheManager.clearByPattern(pattern)` from
`src/utils/cacheManager.js` lines 82-92: always an explicit rejection
(Upstash Redis cannot enumerate keys by pattern). -/
def clearByPattern (_st : RedisState) (_pattern : String) : ClearResult :=
  ⟨false, "Pattern-based cache clearing not available with Upstash Redis"⟩

/-- Result of `PerpetualCacheManager.migrateToPerpetual`. -/
structure MigrationResult where
  success : Bool
  message : String
  totalProcessed : ℕ
  successCount : ℕ
  errorCount : ℕ

/-- `PerpetualCacheManager.migrateToPerpetual(pattern)` from
`src/utils/perpetualCache.js` lines 15-47: unavailable store is
rejected; otherwise the function processes nothing and reports
`success: true` with zero counts. -/
def migrateToPerpetual (st : RedisState) (_pattern : String) : MigrationResult × RedisState :=
  if !(RedisService.isAvailable st) then
    (⟨false, "Redis service is not available", 0, 0, 0⟩, st)
  else
    (⟨true, "Migration completed successfully", 0, 0, 0⟩, st)

/-- A candidate location passed to `warmupCache`: raw `lat`, `lng` and
`address` properties, each possibly absent (JS `undefined`). -/
structure WarmLoc where
  lat : Option Json
  lng : Option Json
  address : Option Json

/-- `JSON.stringify(location)` for the error message: present fields in
property order. -/
def locJson (loc : WarmLoc) : Json :=
  Json.obj ((match loc.lat with | some v => [("lat", v)] | none => []) ++
    (match loc.lng with | some v => [("lng", v)] | none => []) ++
    (match loc.address with | some v => [("address", v)] | none => []))

/-- Result record of `PerpetualCacheManager.warmupCache`. -/
structure WarmupResult where
  success : Bool
  message : Option String
  totalLocations : ℕ
  alreadyCached : ℕ
  needsGeocoding : ℕ
  errors : List String

/-- Outcome of the per-location branch of the warmup loop. -/
inductive WarmStep where
  | key (k : String)
  | invalid (msg : String)
  | thrown

/-- The branch `if (location.lat && location.lng) ... else if
(location.address) ... else errors.push(...)` of `warmupCache`
(`src/utils/perpetualCache.js` lines 111-128); `thrown` models the
exception `generateCacheKey` raises on non-numeric coordinates. -/
def warmupStep (loc : WarmLoc) : WarmStep :=
  if jsTruthyOpt loc.lat && jsTruthyOpt loc.lng then
    match generateCacheKey "reverse-geocode"
        (Json.obj [("latitude", loc.lat.getD Json.null),
          ("longitude", loc.lng.getD Json.null)]) none with
    | some k => WarmStep.key k
    | none => WarmStep.thrown
  else if jsTruthyOpt loc.address then
    match generateCacheKey "geocode"
        (Json.obj [("address", loc.address.getD Json.null)]) none with
    | some k => WarmStep.key k
    | none => WarmStep.thrown
  else WarmStep.invalid ("Invalid location format: " ++ jsonSerialize (locJson loc))

/-- The `for (const location of locations)` loop of `warmupCache`:
key derivation plus a read-only existence check per location; `none`
models an exception escaping to the surrounding catch. -/
def warmupLoop (st : RedisState) (now : ℕ) :
    List WarmLoc → ℕ → ℕ → List String → Option (ℕ × ℕ × List String)
  | [], alreadyCached, needsGeocoding, errs => some (alreadyCached, needsGeocoding, errs)
  | loc :: rest, alreadyCached, needsGeocoding, errs =>
    match warmupStep loc with
    | WarmStep.thrown => none
    | WarmStep.invalid msg => warmupLoop st now rest alreadyCached needsGeocoding (errs ++ [msg])
    | WarmStep.key k =>
      if jsTruthyOpt (RedisService.get st now k) then
        warmupLoop st now rest (alreadyCached + 1) needsGeocoding errs
      else
        warmupLoop st now rest alreadyCached (needsGeocoding + 1) errs

/-- `PerpetualCacheManager.warmupCache(locations)` from
`src/utils/perpetualCache.js` lines 94-149: early rejection when the
store is unavailable or the list is empty; otherwise the loop above,
with the catch path reporting `success: false`. The state is returned
unchanged: the function only reads from the store. -/
def warmupCache (st : RedisState) (now : ℕ) (locations : List WarmLoc) :
    WarmupResult × RedisState :=
  if !(RedisService.isAvailable st) || locations.isEmpty then
    (⟨false, some "Cache not available or no locations provided", 0, 0, 0, []⟩, st)
  else
    match warmupLoop st now locations 0 0 [] with
    | some (alreadyCached, needsGeocoding, errs) =>
      (⟨true, none, locations.length, alreadyCached, needsGeocoding, errs⟩, st)
    | none => (⟨false, some "Cache warmup error", 0, 0, 0, []⟩, st)

section LookupLemmas

variable {β : Type}

theorem lookup_cons_self (k : String) (v : β) (l : List (String × β)) :
    List.lookup k ((k, v) :: l) = some v := by
  simp [List.lookup]

theorem lookup_cons_pair (k' : String) (p : String × β) (l : List (String × β)) :
    List.lookup k' (p :: l) = if k' == p.1 then some p.2 else List.lookup k' l := by
  rw [show p = (p.1, p.2) from rfl]
  by_cases hb : (k' == p.1) = true <;> simp [List.lookup, hb]

theorem lookup_cons_ne (k k' : String) (v : β) (l : List (String × β)) (h : k' ≠ k) :
    List.lookup k' ((k, v) :: l) = List.lookup k' l := by
  rw [lookup_cons_pair]
  simp [h]

theorem lookup_filterKey_self (k : String) (l : List (String × β)) :
    List.lookup k (l.filter (fun p => !(p.1 == k))) = none := by
  induction l with
  | nil => rfl
  | cons p rest ih =>
    by_cases hp : p.1 = k
    · simp only [List.filter, show (p.1 == k) = true by simp [hp], Bool.not_true]
      exact ih
    · simp only [List.filter, show (p.1 == k) = false by simp [hp], Bool.not_false]
      rw [lookup_cons_pair]
      have hb : (k == p.1) = false := by simp [Ne.symm hp]
      simp [hb, ih]

theorem lookup_filterKey_ne (k k' : String) (l : List (String × β)) (h : k' ≠ k) :
    List.lookup k' (l.filter (fun p => !(p.1 == k))) = List.lookup k' l := by
  induction l with
  | nil => rfl
  | cons p rest ih =>
    by_cases hp : p.1 = k
    · simp only [List.filter, show (p.1 == k) = true by simp [hp], Bool.not_true]
      rw [lookup_cons_pair]
      have hb : (k' == p.1) = false := by simp [hp, h]
      simp [hb, ih]
    · simp only [List.filter, show (p.1 == k) = false by simp [hp], Bool.not_false]
      rw [lookup_cons_pair, lookup_cons_pair]
      by_cases hq : (k' == p.1) = true <;> simp [hq, ih]

theorem lookup_cons_none {k : String} {p : String × β} {rest : List (String × β)}
    (h : List.lookup k (p :: rest) = none) :
    p.1 ≠ k ∧ List.lookup k rest = none := by
  rw [lookup_cons_pair] at h
  by_cases hp : p.1 = k
  · simp [hp] at h
  · have hb : (k == p.1) = false := by simp [Ne.symm hp]
    rw [hb] at h
    exact ⟨hp, by simpa using h⟩

end LookupLemmas

theorem lookup_storeInsert_self (l : List (String × Entry)) (k : String) (e : Entry) :
    List.lookup k (storeInsert l k e) = some e := by
  unfold storeInsert
  exact lookup_cons_self k e _

theorem lookup_storeInsert_ne (l : List (String × Entry)) (k : String) (e : Entry)
    (k' : String) (h : k' ≠ k) :
    List.lookup k' (storeInsert l k e) = List.lookup k' l := by
  unfold storeInsert
  rw [lookup_cons_ne k k' e _ h, lookup_filterKey_ne k k' l h]

theorem lookup_objUpsert_self (fs : List (String × Json)) (k : String) (v : Json) :
    List.lookup k (objUpsert fs k v) = some v := by
  induction fs with
  | nil => exact lookup_cons_self k v []
  | cons p rest ih =>
    unfold objUpsert
    by_cases hp : p.1 = k
    · rw [if_pos hp]
      exact lookup_cons_self k v rest
    · rw [if_neg hp, lookup_cons_pair]
      have hb : (k == p.1) = false := by simp [Ne.symm hp]
      simp [hb, ih]

theorem lookup_objUpsert_ne (fs : List (String × Json)) (k : String) (v : Json)
    (k' : String) (h : k' ≠ k) :
    List.lookup k' (objUpsert fs k v) = List.lookup k' fs := by
  induction fs with
  | nil => exact lookup_cons_ne k k' v [] h
  | cons p rest ih =>
    unfold objUpsert
    by_cases hp : p.1 = k
    · rw [if_pos hp, lookup_cons_ne k k' v rest h, lookup_cons_pair]
      have hb : (k' == p.1) = false := by simp [hp, h]
      simp [hb]
    · rw [if_neg hp, lookup_cons_pair, lookup_cons_pair]
      by_cases hq : (k' == p.1) = true <;> simp [hq, ih]

theorem objUpsert_of_lookup_none (fs : List (String × Json)) (k : String) (v : Json)
    (h : List.lookup k fs = none) : objUpsert fs k v = fs ++ [(k, v)] := by
  induction fs with
  | nil => rfl
  | cons p rest ih =>
    obtain ⟨hp, hrest⟩ := lookup_cons_none h
    unfold objUpsert
    rw [if_neg hp, ih hrest]
    rfl

theorem lookup_removeField_self (fs : List (String × Json)) (k : String) :
    List.lookup k (removeField fs k) = none := by
  unfold removeField
  exact lookup_filterKey_self k fs

theorem lookup_removeField_ne (fs : List (String × Json)) (k k' : String) (h : k' ≠ k) :
    List.lookup k' (removeField fs k) = List.lookup k' fs := by
  unfold removeField
  exact lookup_filterKey_ne k k' fs h

theorem countP_removeField (fs : List (String × Json)) (k : String) :
    (removeField fs k).countP (fun p => p.1 == k) = 0 := by
  apply List.countP_eq_zero.mpr
  intro p hp
  have := (List.mem_filter.mp hp).2
  simpa using this

/-- C3: `set(key, value, ttlSeconds)` with `ttlSeconds == 0` stores the
entry with no expiration deadline (perpetual); any positive `ttlSeconds`
stores it with exactly the deadline `now + ttlSeconds`; in both cases an
existing entry at the same key is overwritten (the post-state binding is
the fresh one for every prior store content) and other keys are
untouched. -/
theorem redis_set_ttl_semantics (st : RedisState) (now : ℕ) (key : String) (data : Json)
    (ttl : ℕ) (hen : st.enabled = true) (hfail : st.failing = false) :
    ((RedisService.set st now key data 0).2 = true ∧
      List.lookup key (RedisService.set st now key data 0).1.store =
        some ⟨RawValue.str (serializeForRedis data), none⟩) ∧
    (0 < ttl →
      (RedisService.set st now key data ttl).2 = true ∧
      List.lookup key (RedisService.set st now key data ttl).1.store =
        some ⟨RawValue.str (serializeForRedis data), some (now + ttl)⟩) ∧
    (∀ k', k' ≠ key →
      List.lookup k' (RedisService.set st now key data ttl).1.store =
        List.lookup k' st.store) := by
  unfold RedisService.set
  rw [hen, hfail]
  simp only [Bool.not_true, Bool.false_eq_true, if_false]
  refine ⟨⟨trivial, ?_⟩, ?_, ?_⟩
  · simp [lookup_storeInsert_self]
  · intro hpos
    have : ¬(ttl = 0) := Nat.pos_iff_ne_zero.mp hpos
    refine ⟨trivial, ?_⟩
    simp only [if_neg this]
    exact lookup_storeInsert_self _ _ _
  · intro k' hk
    by_cases h0 : ttl = 0 <;> simp only [h0, if_true, if_neg, if_pos] <;>
      exact lookup_storeInsert_ne _ _ _ _ hk

/-- C3 witness: a concrete overwrite with `ttl = 0` and with `ttl = 5`
on a store that already holds an entry at the key. -/
theorem redis_set_ttl_semantics_witness :
    ((RedisService.set ⟨true, false, true, [("k", ⟨RawValue.str "old", some 7⟩)]⟩
        100 "k" (Json.obj []) 0).2 = true ∧
      List.lookup "k" (RedisService.set ⟨true, false, true,
          [("k", ⟨RawValue.str "old", some 7⟩)]⟩ 100 "k" (Json.obj []) 0).1.store =
        some ⟨RawValue.str (serializeForRedis (Json.obj [])), none⟩) ∧
    (0 < 5 →
      (RedisService.set ⟨true, false, true, [("k", ⟨RawValue.str "old", some 7⟩)]⟩
          100 "k" (Json.obj []) 5).2 = true ∧
      List.lookup "k" (RedisService.set ⟨true, false, true,
          [("k", ⟨RawValue.str "old", some 7⟩)]⟩ 100 "k" (Json.obj []) 5).1.store =
        some ⟨RawValue.str (serializeForRedis (Json.obj [])), some (100 + 5)⟩) ∧
    (∀ k', k' ≠ "k" →
      List.lookup k' (RedisService.set ⟨true, false, true,
          [("k", ⟨RawValue.str "old", some 7⟩)]⟩ 100 "k" (Json.obj []) 5).1.store =
        List.lookup k' [("k", ⟨RawValue.str "old", some 7⟩)]) :=
  redis_set_ttl_semantics ⟨true, false, true, [("k", ⟨RawValue.str "old", some 7⟩)]⟩
    100 "k" (Json.obj []) 5 rfl rfl

/-- C4: store operations never throw toward the caller: when the store
is disabled or the backend raises errors, `get` returns `null`, `set`
returns `false` and `del` returns `false` (all leaving the state
untouched); and a stored payload that fails to decode — an unparsable
JSON string or an unexpected value type — is returned by `get` as
`null`. -/
theorem redis_ops_degrade (st : RedisState) (now : ℕ) (key : String) (data : Json)
    (ttl : ℕ) (s : String) :
    (st.enabled = false ∨ st.failing = true →
      RedisService.get st now key = none ∧
      RedisService.set st now key data ttl = (st, false) ∧
      RedisService.del st now key = (st, false)) ∧
    (storeLookup st key now = some (RawValue.str s) → s ≠ "" → jsonParse s = none →
      RedisService.get st now key = none) ∧
    (storeLookup st key now = some RawValue.other →
      RedisService.get st now key = none) := by
  refine ⟨?_, ?_, ?_⟩
  · rintro (hd | hf)
    · simp [RedisService.get, RedisService.set, RedisService.del, hd]
    · by_cases hd : st.enabled = true
      · simp [RedisService.get, RedisService.set, RedisService.del, hd, hf]
      · have hd2 : st.enabled = false := by
          cases h : st.enabled
          · rfl
          · exact absurd h hd
        simp [RedisService.get, RedisService.set, RedisService.del, hd2]
  · intro hlk hs hp
    unfold RedisService.get
    by_cases hd : st.enabled = true
    · by_cases hf : st.failing = true
      · simp [hd, hf]
      · have hf2 : st.failing = false := by
          cases h : st.failing
          · rfl
          · exact absurd h hf
        simp [hd, hf2, hlk, hs, hp]
    · have hd2 : st.enabled = false := by
        cases h : st.enabled
        · rfl
        · exact absurd h hd
      simp [hd2]
  · intro hlk
    unfold RedisService.get
    by_cases hd : st.enabled = true
    · by_cases hf : st.failing = true
      · simp [hd, hf]
      · have hf2 : st.failing = false := by
          cases h : st.failing
          · rfl
          · exact absurd h hf
        simp [hd, hf2, hlk]
    · have hd2 : st.enabled = false := by
        cases h : st.enabled
        · rfl
        · exact absurd h hd
      simp [hd2]

/-- C4 witness: `get` misses on a disabled store and on a stored payload
that is not valid JSON. -/
theorem redis_ops_degrade_witness :
    RedisService.get ⟨false, false, true, []⟩ 0 "k" = none ∧
    RedisService.get ⟨true, false, true, [("k", ⟨RawValue.str "not json", none⟩)]⟩
      5 "k" = none :=
  ⟨((redis_ops_degrade ⟨false, false, true, []⟩ 0 "k" Json.null 0 "").1 (Or.inl rfl)).1,
   (redis_ops_degrade ⟨true, false, true, [("k", ⟨RawValue.str "not json", none⟩)]⟩
      5 "k" Json.null 0 "not json").2.1 rfl (by decide) rfl⟩

/-- C8: `runDiagnostic` never leaves its synthetic test key in the
store: on every exit path — unavailable store, ping failure, set
failure, failed read-back, failed integrity comparison — the synthetic
key is absent from the store when the function returns (no other code
path can throw, because every store operation catches backend errors
internally). -/
theorem runDiagnostic_cleanup (st : RedisState) (now : ℕ)
    (hfresh : List.lookup (diagnosticKey now) st.store = none) :
    List.lookup (diagnosticKey now) (runDiagnostic st now).2.store = none := by
  unfold runDiagnostic
  by_cases hav : st.enabled = true
  · by_cases hf : st.failing = true
    · simp [RedisService.isAvailable, RedisService.set, hav, hf, hfresh]
    · have hf2 : st.failing = false := by
        cases h : st.failing
        · rfl
        · exact absurd h hf
      simp only [RedisService.isAvailable, RedisService.set, RedisService.del, hav, hf2]
      simp [lookup_filterKey_self]
  · have hd2 : st.enabled = false := by
      cases h : st.enabled
      · rfl
      · exact absurd h hav
    simp [RedisService.isAvailable, hd2, hfresh]

/-- C8 witness: a healthy empty store; the synthetic key is gone after
the diagnostic. -/
theorem runDiagnostic_cleanup_witness :
    List.lookup (diagnosticKey 0) (runDiagnostic ⟨true, false, true, []⟩ 0).2.store = none :=
  runDiagnostic_cleanup ⟨true, false, true, []⟩ 0 rfl

/-- C9 counterexample: `migrateToPerpetual` on an available store with
the default pattern reports `success: true` while processing zero
entries and leaving the store untouched — it claims success although
nothing was done, contradicting the claim that pattern-based bulk
operations never report success without processing entries. -/
theorem migrateToPerpetual_claims_empty_success :
    (migrateToPerpetual ⟨true, false, true, []⟩ "*geocode*").1.success = true ∧
    (migrateToPerpetual ⟨true, false, true, []⟩ "*geocode*").1.totalProcessed = 0 ∧
    (migrateToPerpetual ⟨true, false, true, []⟩ "*geocode*").2 =
      ⟨true, false, true, []⟩ :=
  ⟨rfl, rfl, rfl⟩

/-- C9 (amended): pattern-based cache clearing is explicitly rejected
with a descriptive error (`success: false`), but pattern-based
migration instead reports `success: true` with zero entries processed —
a no-op that claims success — and never touches the store. -/
theorem pattern_ops_behavior (st : RedisState) (pattern : String)
    (hav : RedisService.isAvailable st = true) :
    (clearByPattern st pattern).success = false ∧
    (clearByPattern st pattern).message =
      "Pattern-based cache clearing not available with Upstash Redis" ∧
    (migrateToPerpetual st pattern).1.success = true ∧
    (migrateToPerpetual st pattern).1.message = "Migration completed successfully" ∧
    (migrateToPerpetual st pattern).1.totalProcessed = 0 ∧
    (migrateToPerpetual st pattern).2 = st := by
  unfold clearByPattern migrateToPerpetual
  rw [hav]
  exact ⟨rfl, rfl, rfl, rfl, rfl, rfl⟩

/-- C9 witness: the amended behavior at a concrete available store. -/
theorem pattern_ops_behavior_witness :
    (clearByPattern ⟨true, false, true, []⟩ "geocode:*").success = false ∧
    (clearByPattern ⟨true, false, true, []⟩ "geocode:*").message =
      "Pattern-based cache clearing not available with Upstash Redis" ∧
    (migrateToPerpetual ⟨true, false, true, []⟩ "geocode:*").1.success = true ∧
    (migrateToPerpetual ⟨true, false, true, []⟩ "geocode:*").1.message =
      "Migration completed successfully" ∧
    (migrateToPerpetual ⟨true, false, true, []⟩ "geocode:*").1.totalProcessed = 0 ∧
    (migrateToPerpetual ⟨true, false, true, []⟩ "geocode:*").2 = ⟨true, false, true, []⟩ :=
  pattern_ops_behavior ⟨true, false, true, []⟩ "geocode:*" rfl

/-- C5: on a cache miss the middleware forwards every response unchanged
and writes to the store exactly when the computation reports logical
success: a 200 status together with a truthy `success` flag in the body
produces a store write (the fresh document under the cache key, with the
appropriate deadline), while any other status or a falsy `success` flag
leaves the store untouched. -/
theorem capture_writes_iff_success (st : RedisState) (now : ℕ) (pfx cacheKey : String)
    (ttl : ℕ) (perpetual : Bool) (statusCode : ℕ) (data : Json)
    (hen : st.enabled = true) (hfail : st.failing = false) :
    ((captureResponse st now pfx cacheKey ttl perpetual statusCode data).2 =
      (statusCode, data)) ∧
    (statusCode = 200 → successFlag data = true →
      List.lookup cacheKey
        (captureResponse st now pfx cacheKey ttl perpetual statusCode data).1.store =
        some ⟨RawValue.str (serializeForRedis (responseToCache data now pfx ttl perpetual)),
          if perpetual = true ∨ ttl = 0 then none else some (now + ttl)⟩) ∧
    (¬(statusCode = 200 ∧ successFlag data = true) →
      (captureResponse st now pfx cacheKey ttl perpetual statusCode data).1 = st) := by
  refine ⟨?_, ?_, ?_⟩
  · unfold captureResponse
    by_cases hc : (statusCode == 200 && successFlag data) = true <;> simp [hc]
  · intro h200 hsucc
    have hc : (statusCode == 200 && successFlag data) = true := by
      simp [h200, hsucc]
    unfold captureResponse
    rw [if_pos hc]
    unfold RedisService.set
    rw [hen, hfail]
    simp only [Bool.not_true, Bool.false_eq_true, if_false]
    cases perpetual with
    | true =>
      simp only [if_pos rfl, if_pos (Or.inl rfl)]
      exact lookup_storeInsert_self _ _ _
    | false =>
      by_cases h0 : ttl = 0
      · simp only [Bool.false_eq_true, if_false, if_pos h0, if_pos (Or.inr h0)]
        exact lookup_storeInsert_self _ _ _
      · have hnor : ¬(False ∨ ttl = 0) := by simp [h0]
        simp only [Bool.false_eq_true, if_false, if_neg h0, if_neg hnor]
        exact lookup_storeInsert_self _ _ _
  · intro hn
    have hc : (statusCode == 200 && successFlag data) = false := by
      by_cases h200 : statusCode = 200
      · by_cases hsucc : successFlag data = true
        · exact absurd ⟨h200, hsucc⟩ hn
        · simp [hsucc]
      · simp [h200]
    unfold captureResponse
    rw [if_neg (by simp [hc])]

/-- C5 witness: a success body is written (perpetual entry); a failure
body (`success: false`) with status 200 is forwarded but not written. -/
theorem capture_writes_iff_success_witness :
    ((captureResponse ⟨true, false, true, []⟩ 50 "reverse-geocode" "rk" 86400 true 200
        (Json.obj [("success", Json.bool true)])).2 =
      (200, Json.obj [("success", Json.bool true)])) ∧
    (List.lookup "rk" (captureResponse ⟨true, false, true, []⟩ 50 "reverse-geocode" "rk"
        86400 true 200 (Json.obj [("success", Json.bool true)])).1.store =
      some ⟨RawValue.str (serializeForRedis (responseToCache
        (Json.obj [("success", Json.bool true)]) 50 "reverse-geocode" 86400 true)),
        none⟩) ∧
    ((captureResponse ⟨true, false, true, []⟩ 50 "reverse-geocode" "rk" 86400 true 200
        (Json.obj [("success", Json.bool false)])).1 = ⟨true, false, true, []⟩) := by
  have h1 := capture_writes_iff_success ⟨true, false, true, []⟩ 50 "reverse-geocode" "rk"
    86400 true 200 (Json.obj [("success", Json.bool true)]) rfl rfl
  have h2 := capture_writes_iff_success ⟨true, false, true, []⟩ 50 "reverse-geocode" "rk"
    86400 true 200 (Json.obj [("success", Json.bool false)]) rfl rfl
  refine ⟨h1.1, ?_, h2.2.2 ?_⟩
  · have := h1.2.1 rfl (by rfl)
    simpa using this
  · rintro ⟨-, hs⟩
    cases hs

/-- C7: the document built for storage strips any previously attached
`cached`, `cacheTimestamp` and `cacheMetadata` fields, embeds exactly one
fresh `cacheMetadata` object — `cachedAt = now`, the perpetual flag, the
operation prefix and the declared TTL — inside the document itself,
keeps every other payload field, and is exactly what the success path
writes under the cache key. -/
theorem responseToCache_fresh_metadata (data : Json) (now : ℕ) (pfx : String) (ttl : ℕ)
    (perpetual : Bool) :
    (objFields (responseToCache data now pfx ttl perpetual)).countP
      (fun p => p.1 == "cacheMetadata") = 1 ∧
    List.lookup "cacheMetadata" (objFields (responseToCache data now pfx ttl perpetual)) =
      some (Json.obj
        [("cachedAt", Json.str (isoOfMs now)), ("perpetual", Json.bool perpetual),
         ("cachePrefix", Json.str pfx), ("originalTtl", Json.num (ttl : ℚ))]) ∧
    List.lookup "cached" (objFields (responseToCache data now pfx ttl perpetual)) = none ∧
    List.lookup "cacheTimestamp"
      (objFields (responseToCache data now pfx ttl perpetual)) = none ∧
    (∀ k, k ≠ "cached" → k ≠ "cacheTimestamp" → k ≠ "cacheMetadata" →
      List.lookup k (objFields (responseToCache data now pfx ttl perpetual)) =
        List.lookup k (objFields data)) ∧
    (∀ (st : RedisState) (cacheKey : String), st.enabled = true → st.failing = false →
      successFlag data = true →
      ∃ exp, List.lookup cacheKey
        (captureResponse st now pfx cacheKey ttl perpetual 200 data).1.store =
        some ⟨RawValue.str (serializeForRedis (responseToCache data now pfx ttl perpetual)),
          exp⟩) := by
  have hfields : objFields (responseToCache data now pfx ttl perpetual) =
      objUpsert (removeField (removeField (removeField (objFields data) "cached")
        "cacheTimestamp") "cacheMetadata") "cacheMetadata"
        (Json.obj
          [("cachedAt", Json.str (isoOfMs now)), ("perpetual", Json.bool perpetual),
           ("cachePrefix", Json.str pfx), ("originalTtl", Json.num (ttl : ℚ))]) := rfl
  have hnone : List.lookup "cacheMetadata"
      (removeField (removeField (removeField (objFields data) "cached") "cacheTimestamp")
        "cacheMetadata") = none := lookup_removeField_self _ _
  refine ⟨?_, ?_, ?_, ?_, ?_, ?_⟩
  · rw [hfields, objUpsert_of_lookup_none _ _ _ hnone, List.countP_append]
    rw [show (removeField (removeField (removeField (objFields data) "cached")
      "cacheTimestamp") "cacheMetadata").countP (fun p => p.1 == "cacheMetadata") = 0
      from countP_removeField _ _]
    rfl
  · rw [hfields]
    exact lookup_objUpsert_self _ _ _
  · rw [hfields, lookup_objUpsert_ne _ _ _ _ (by decide),
      lookup_removeField_ne _ _ _ (by decide), lookup_removeField_ne _ _ _ (by decide)]
    exact lookup_removeField_self _ _
  · rw [hfields, lookup_objUpsert_ne _ _ _ _ (by decide),
      lookup_removeField_ne _ _ _ (by decide)]
    exact lookup_removeField_self _ _
  · intro k h1 h2 h3
    rw [hfields, lookup_objUpsert_ne _ _ _ _ h3, lookup_removeField_ne _ _ _ h3,
      lookup_removeField_ne _ _ _ h2, lookup_removeField_ne _ _ _ h1]
  · intro st cacheKey hen hfail hsucc
    unfold captureResponse
    rw [if_pos (by simp [hsucc])]
    unfold RedisService.set
    rw [hen, hfail]
    simp only [Bool.not_true, Bool.false_eq_true, if_false]
    by_cases h0 : (if perpetual = true then 0 else ttl) = 0
    · exact ⟨none, by simp only [if_pos h0]; exact lookup_storeInsert_self _ _ _⟩
    · exact ⟨some (now + (if perpetual = true then 0 else ttl)),
        by simp only [if_neg h0]; exact lookup_storeInsert_self _ _ _⟩

/-- C7 witness: a stale response carrying old cache fields is
re-stamped; the stored document has exactly one, fresh, metadata
object. -/
theorem responseToCache_fresh_metadata_witness :
    List.lookup "cacheMetadata"
      (objFields (responseToCache
        (Json.obj [("success", Json.bool true), ("cached", Json.bool true),
          ("cacheMetadata", Json.str "stale")]) 77 "geocode" 3600 false)) =
      some (Json.obj
        [("cachedAt", Json.str (isoOfMs 77)), ("perpetual", Json.bool false),
         ("cachePrefix", Json.str "geocode"), ("originalTtl", Json.num (3600 : ℚ))]) ∧
    (∀ k, k ≠ "cached" → k ≠ "cacheTimestamp" → k ≠ "cacheMetadata" →
      List.lookup k (objFields (responseToCache
        (Json.obj [("success", Json.bool true), ("cached", Json.bool true),
          ("cacheMetadata", Json.str "stale")]) 77 "geocode" 3600 false)) =
        List.lookup k (objFields
          (Json.obj [("success", Json.bool true), ("cached", Json.bool true),
            ("cacheMetadata", Json.str "stale")]))) := by
  have h := responseToCache_fresh_metadata
    (Json.obj [("success", Json.bool true), ("cached", Json.bool true),
      ("cacheMetadata", Json.str "stale")]) 77 "geocode" 3600 false
  exact ⟨h.2.1, h.2.2.2.2.1⟩

/-- C6: on a cache hit the middleware answers 200 with the stored
payload merged with hit metadata — `cached: true`, a serve timestamp,
the perpetual flag, and `cacheAge` equal to the floor of
`(now - cachedAt)` in seconds — every other payload field is passed
through unchanged, and no store operation is performed, so the stored
entry is unchanged by serving the hit. -/
theorem serveHit_enrichment (st : RedisState) (cfs mfs : List (String × Json)) (now t : ℕ)
    (hmeta : List.lookup "cacheMetadata" cfs = some (Json.obj mfs))
    (hstamp : List.lookup "cachedAt" mfs = some (Json.str (isoOfMs t))) :
    (serveHit st (Json.obj cfs) now).1 = st ∧
    (serveHit st (Json.obj cfs) now).2.1 = 200 ∧
    getField (hitBody (Json.obj cfs) now) "cached" = some (Json.bool true) ∧
    getField (hitBody (Json.obj cfs) now) "cacheTimestamp" =
      some (Json.str (isoOfMs now)) ∧
    (∃ M, getField (hitBody (Json.obj cfs) now) "cacheMetadata" = some (Json.obj M) ∧
      List.lookup "cacheAge" M =
        some (Json.num ((((now : ℤ) - (t : ℤ)).fdiv 1000 : ℤ) : ℚ)) ∧
      List.lookup "servedAt" M = some (Json.str (isoOfMs now)) ∧
      List.lookup "isPerpetual" M = some (Json.bool (perpFlag (Json.obj cfs)))) ∧
    (∀ k, k ≠ "cached" → k ≠ "cacheTimestamp" → k ≠ "cacheMetadata" →
      getField (hitBody (Json.obj cfs) now) k = List.lookup k cfs) := by
  have hage : hitCacheAgeMs (Json.obj cfs) now = (now : ℤ) - (t : ℤ) := by
    unfold hitCacheAgeMs
    simp only [getField, hmeta, jsTruthy, if_pos, hstamp, msOfIso_isoOfMs]
  have hbody : hitBody (Json.obj cfs) now =
      Json.obj (objUpsert (objUpsert (objUpsert cfs
        "cached" (Json.bool true))
        "cacheTimestamp" (Json.str (isoOfMs now)))
        "cacheMetadata" (Json.obj (objUpsert (objUpsert (objUpsert mfs
          "isPerpetual" (Json.bool (perpFlag (Json.obj cfs))))
          "cacheAge" (Json.num ((((now : ℤ) - (t : ℤ)).fdiv 1000 : ℤ) : ℚ)))
          "servedAt" (Json.str (isoOfMs now))))) := by
    unfold hitBody
    rw [hage]
    simp only [getField, hmeta, objFields]
  refine ⟨rfl, rfl, ?_, ?_, ?_, ?_⟩
  · rw [hbody]
    show List.lookup "cached" _ = _
    rw [lookup_objUpsert_ne _ _ _ _ (by decide), lookup_objUpsert_ne _ _ _ _ (by decide)]
    exact lookup_objUpsert_self _ _ _
  · rw [hbody]
    show List.lookup "cacheTimestamp" _ = _
    rw [lookup_objUpsert_ne _ _ _ _ (by decide)]
    exact lookup_objUpsert_self _ _ _
  · refine ⟨objUpsert (objUpsert (objUpsert mfs
      "isPerpetual" (Json.bool (perpFlag (Json.obj cfs))))
      "cacheAge" (Json.num ((((now : ℤ) - (t : ℤ)).fdiv 1000 : ℤ) : ℚ)))
      "servedAt" (Json.str (isoOfMs now)), ?_, ?_, ?_, ?_⟩
    · rw [hbody]
      show List.lookup "cacheMetadata" _ = _
      exact lookup_objUpsert_self _ _ _
    · rw [lookup_objUpsert_ne _ _ _ _ (by decide)]
      exact lookup_objUpsert_self _ _ _
    · exact lookup_objUpsert_self _ _ _
    · rw [lookup_objUpsert_ne _ _ _ _ (by decide),
        lookup_objUpsert_ne _ _ _ _ (by decide)]
      exact lookup_objUpsert_self _ _ _
  · intro k h1 h2 h3
    rw [hbody]
    show List.lookup k _ = _
    rw [lookup_objUpsert_ne _ _ _ _ h3, lookup_objUpsert_ne _ _ _ _ h2,
      lookup_objUpsert_ne _ _ _ _ h1]

/-- C6 witness: serving a concrete stored document (cached at time 1000,
served at time 3500) yields age 2 seconds, the hit markers, and an
unchanged store. -/
theorem serveHit_enrichment_witness :
    (serveHit ⟨true, false, true, []⟩
      (Json.obj [("data", Json.str "payload"),
        ("cacheMetadata", Json.obj [("cachedAt", Json.str (isoOfMs 1000)),
          ("perpetual", Json.bool true)])]) 3500).1 = ⟨true, false, true, []⟩ ∧
    getField (hitBody (Json.obj [("data", Json.str "payload"),
        ("cacheMetadata", Json.obj [("cachedAt", Json.str (isoOfMs 1000)),
          ("perpetual", Json.bool true)])]) 3500) "cached" = some (Json.bool true) ∧
    (∀ k, k ≠ "cached" → k ≠ "cacheTimestamp" → k ≠ "cacheMetadata" →
      getField (hitBody (Json.obj [("data", Json.str "payload"),
          ("cacheMetadata", Json.obj [("cachedAt", Json.str (isoOfMs 1000)),
            ("perpetual", Json.bool true)])]) 3500) k =
        List.lookup k [("data", Json.str "payload"),
          ("cacheMetadata", Json.obj [("cachedAt", Json.str (isoOfMs 1000)),
            ("perpetual", Json.bool true)])]) := by
  have h := serveHit_enrichment ⟨true, false, true, []⟩
    [("data", Json.str "payload"),
      ("cacheMetadata", Json.obj [("cachedAt", Json.str (isoOfMs 1000)),
        ("perpetual", Json.bool true)])]
    [("cachedAt", Json.str (isoOfMs 1000)), ("perpetual", Json.bool true)]
    3500 1000 (by rfl) (by rfl)
  exact ⟨h.1, h.2.2.1, h.2.2.2.2.2⟩

theorem warmupStep_invalid_pred (loc : WarmLoc) (msg : String)
    (h : warmupStep loc = WarmStep.invalid msg) :
    (!(jsTruthyOpt loc.lat && jsTruthyOpt loc.lng) && !(jsTruthyOpt loc.address)) = true := by
  unfold warmupStep at h
  by_cases h1 : (jsTruthyOpt loc.lat && jsTruthyOpt loc.lng) = true
  · rw [if_pos h1] at h
    split at h <;> cases h
  · rw [if_neg h1] at h
    by_cases h2 : jsTruthyOpt loc.address = true
    · rw [if_pos h2] at h
      split at h <;> cases h
    · have hb1 : (jsTruthyOpt loc.lat && jsTruthyOpt loc.lng) = false :=
        Bool.eq_false_iff.mpr h1
      have hb2 : jsTruthyOpt loc.address = false := Bool.eq_false_iff.mpr h2
      rw [hb1, hb2]
      rfl

theorem warmupStep_key_pred (loc : WarmLoc) (k : String)
    (h : warmupStep loc = WarmStep.key k) :
    (!(jsTruthyOpt loc.lat && jsTruthyOpt loc.lng) && !(jsTruthyOpt loc.address)) = false := by
  by_cases h1 : (jsTruthyOpt loc.lat && jsTruthyOpt loc.lng) = true
  · simp [h1]
  · by_cases h2 : jsTruthyOpt loc.address = true
    · simp [h2]
    · unfold warmupStep at h
      rw [if_neg h1, if_neg h2] at h
      cases h

theorem warmupLoop_partition (st : RedisState) (now : ℕ) (locs : List WarmLoc) :
    ∀ (ac ng : ℕ) (errs : List String) (a n : ℕ) (e : List String),
      warmupLoop st now locs ac ng errs = some (a, n, e) →
      a + n + e.length = ac + ng + errs.length + locs.length ∧
      e.length = errs.length + locs.countP (fun loc =>
        !(jsTruthyOpt loc.lat && jsTruthyOpt loc.lng) && !(jsTruthyOpt loc.address)) := by
  induction locs with
  | nil =>
    intro ac ng errs a n e h
    unfold warmupLoop at h
    injection h with h2
    injection h2 with ha h3
    injection h3 with hn he
    subst ha; subst hn; subst he
    simp
  | cons loc rest ih =>
    intro ac ng errs a n e h
    unfold warmupLoop at h
    split at h
    · cases h
    · next msg heq =>
        have hpred := warmupStep_invalid_pred loc msg heq
        obtain ⟨hsum, hcnt⟩ := ih ac ng (errs ++ [msg]) a n e h
        constructor
        · rw [hsum, List.length_append, List.length_cons]
          simp
          omega
        · rw [hcnt, List.countP_cons, hpred, List.length_append]
          simp
          omega
    · next k heq =>
        have hpred := warmupStep_key_pred loc k heq
        by_cases hg : jsTruthyOpt (RedisService.get st now k) = true
        · rw [if_pos hg] at h
          obtain ⟨hsum, hcnt⟩ := ih (ac + 1) ng errs a n e h
          constructor
          · rw [hsum, List.length_cons]
            omega
          · rw [hcnt, List.countP_cons, hpred]
            simp
        · rw [if_neg hg] at h
          obtain ⟨hsum, hcnt⟩ := ih ac (ng + 1) errs a n e h
          constructor
          · rw [hsum, List.length_cons]
            omega
          · rw [hcnt, List.countP_cons, hpred]
            simp

/-- C10: on a successful run, `warmupCache` partitions its input —
`alreadyCached + needsGeocoding + errors` equals `totalLocations`, which
is the input length — the error count is exactly the number of
locations lacking (truthy) coordinates and a (truthy) address, and the
store state is returned untouched: the function only derives keys and
reads. -/
theorem warmupCache_partition (st : RedisState) (now : ℕ) (locations : List WarmLoc)
    (h : (warmupCache st now locations).1.success = true) :
    (warmupCache st now locations).1.alreadyCached +
        (warmupCache st now locations).1.needsGeocoding +
        (warmupCache st now locations).1.errors.length =
      (warmupCache st now locations).1.totalLocations ∧
    (warmupCache st now locations).1.totalLocations = locations.length ∧
    (warmupCache st now locations).1.errors.length = locations.countP
      (fun loc => !(jsTruthyOpt loc.lat && jsTruthyOpt loc.lng) &&
        !(jsTruthyOpt loc.address)) ∧
    (warmupCache st now locations).2 = st := by
  unfold warmupCache at h ⊢
  by_cases hguard : (!RedisService.isAvailable st || locations.isEmpty) = true
  · rw [if_pos hguard] at h
    cases h
  · rw [if_neg hguard] at h ⊢
    rcases hl : warmupLoop st now locations 0 0 [] with _ | ⟨a, n, e⟩
    · rw [hl] at h
      cases h
    · obtain ⟨hsum, hcnt⟩ := warmupLoop_partition st now locations 0 0 [] a n e hl
      simp only [List.length_nil, Nat.zero_add] at hsum hcnt
      exact ⟨hsum, rfl, hcnt, rfl⟩

/-- C10 witness: one valid coordinate pair, one address, one malformed
location against an empty healthy store: 0 cached + 2 to geocode +
1 error = 3 locations, and the store is unchanged. -/
theorem warmupCache_partition_witness :
    (warmupCache ⟨true, false, true, []⟩ 9
        [⟨some (Json.num 1), some (Json.num 2), none⟩,
         ⟨none, none, some (Json.str "addr")⟩,
         ⟨none, none, none⟩]).1.alreadyCached +
      (warmupCache ⟨true, false, true, []⟩ 9
        [⟨some (Json.num 1), some (Json.num 2), none⟩,
         ⟨none, none, some (Json.str "addr")⟩,
         ⟨none, none, none⟩]).1.needsGeocoding +
      (warmupCache ⟨true, false, true, []⟩ 9
        [⟨some (Json.num 1), some (Json.num 2), none⟩,
         ⟨none, none, some (Json.str "addr")⟩,
         ⟨none, none, none⟩]).1.errors.length =
      (warmupCache ⟨true, false, true, []⟩ 9
        [⟨some (Json.num 1), some (Json.num 2), none⟩,
         ⟨none, none, some (Json.str "addr")⟩,
         ⟨none, none, none⟩]).1.totalLocations ∧
    (warmupCache ⟨true, false, true, []⟩ 9
        [⟨some (Json.num 1), some (Json.num 2), none⟩,
         ⟨none, none, some (Json.str "addr")⟩,
         ⟨none, none, none⟩]).2 = ⟨true, false, true, []⟩ := by
  have h := warmupCache_partition ⟨true, false, true, []⟩ 9
    [⟨some (Json.num 1), some (Json.num 2), none⟩,
     ⟨none, none, some (Json.str "addr")⟩,
     ⟨none, none, none⟩] rfl
  exact ⟨h.1, h.2.2.2⟩

/-- C1 counterexample: with a present but empty `userId`, the key does
not take the claimed `prefix:user:userId:hash` shape — JS `if (userId)`
treats the empty string as absent, so the code produces the plain
`prefix:hash` key instead (the two shapes differ already in length). -/
theorem generateCacheKey_empty_user_counterexample :
    V1.generateCacheKey "geocode" (Json.obj []) (some "") ≠
      "geocode:user::" ++ md5Hex (jsonSerialize (Json.obj [])) := by
  intro h
  have hL : (V1.generateCacheKey "geocode" (Json.obj []) (some "")).length =
      8 + (md5Hex (jsonSerialize (Json.obj []))).length := by
    show (mkCacheKey "geocode" (md5Hex (jsonSerialize (Json.obj []))) (some "")).length = _
    simp only [mkCacheKey, if_true]
    rw [String.length_append, String.length_append]
    have h7 : ("geocode" : String).length = 7 := rfl
    have h1 : (":" : String).length = 1 := rfl
    rw [h7, h1]
  have hR : ("geocode:user::" ++ md5Hex (jsonSerialize (Json.obj []))).length =
      14 + (md5Hex (jsonSerialize (Json.obj []))).length := by
    rw [String.length_append, show ("geocode:user::" : String).length = 14 from rfl]
  rw [h, hR, length_md5Hex] at hL
  omega

/-- C1 (amended): `generateCacheKey` is deterministic (the key depends
only on the prefix, the serialized data and the userId), returns
`prefix:hash` when `userId` is absent and `prefix:user:userId:hash`
when `userId` is present and non-empty — a present but empty `userId`
behaves as absent — where the hash is the 32-character lowercase-hex
MD5 digest of the serialized data; the coordinate-quantizing revision
agrees with this whenever the data carries no latitude/longitude
fields. -/
theorem generateCacheKey_format :
    (∀ (pfx : String) (d1 d2 : Json) (u : Option String),
      jsonSerialize d1 = jsonSerialize d2 →
      V1.generateCacheKey pfx d1 u = V1.generateCacheKey pfx d2 u) ∧
    (∀ (pfx : String) (d : Json),
      V1.generateCacheKey pfx d none = pfx ++ ":" ++ md5Hex (jsonSerialize d)) ∧
    (∀ (pfx : String) (d : Json) (uid : String), uid ≠ "" →
      V1.generateCacheKey pfx d (some uid) =
        pfx ++ ":user:" ++ uid ++ ":" ++ md5Hex (jsonSerialize d)) ∧
    (∀ (pfx : String) (d : Json),
      V1.generateCacheKey pfx d (some "") = pfx ++ ":" ++ md5Hex (jsonSerialize d)) ∧
    (∀ s : String, (md5Hex s).length = 32 ∧ ∀ c ∈ (md5Hex s).data, isHexChar c) ∧
    (∀ (pfx : String) (d : Json) (u : Option String),
      getField d "latitude" = none ∨ getField d "longitude" = none →
      generateCacheKey pfx d u = some (V1.generateCacheKey pfx d u)) := by
  refine ⟨?_, ?_, ?_, ?_, ?_, ?_⟩
  · intro pfx d1 d2 u hser
    unfold V1.generateCacheKey
    rw [hser]
  · intro pfx d
    rfl
  · intro pfx d uid hne
    show mkCacheKey pfx (md5Hex (jsonSerialize d)) (some uid) = _
    simp only [mkCacheKey]
    rw [if_neg hne]
  · intro pfx d
    rfl
  · intro s
    exact ⟨length_md5Hex s, fun c hc => isHexChar_mem_md5Hex s c hc⟩
  · intro pfx d u h
    rcases h with h1 | h2
    · unfold generateCacheKey
      rw [h1]
      rcases hlng : getField d "longitude" with _ | v
      · rfl
      · cases v <;> rfl
    · unfold generateCacheKey
      rw [h2]
      rcases hlat : getField d "latitude" with _ | v
      · rfl
      · cases v <;> rfl

/-- C1 witness: the user-scoped format at a concrete non-empty userId,
and the digest length at a concrete string. -/
theorem generateCacheKey_format_witness :
    V1.generateCacheKey "geocode" (Json.obj []) (some "u7") =
      "geocode" ++ ":user:" ++ "u7" ++ ":" ++ md5Hex (jsonSerialize (Json.obj [])) ∧
    (md5Hex "abc").length = 32 :=
  ⟨generateCacheKey_format.2.2.1 "geocode" (Json.obj []) "u7" (by decide),
   (generateCacheKey_format.2.2.2.2.1 "abc").1⟩

theorem generateCacheKey_reverse_congr (a b a2 b2 : ℚ) (u : Option String)
    (h1 : roundCoordinate a 2 = roundCoordinate a2 2)
    (h2 : roundCoordinate b 2 = roundCoordinate b2 2) :
    generateCacheKey "reverse-geocode"
      (Json.obj [("latitude", Json.num a), ("longitude", Json.num b)]) u =
    generateCacheKey "reverse-geocode"
      (Json.obj [("latitude", Json.num a2), ("longitude", Json.num b2)]) u := by
  have hla : getField (Json.obj [("latitude", Json.num a), ("longitude", Json.num b)])
      "latitude" = some (Json.num a) := by
    show List.lookup "latitude" _ = _
    exact lookup_cons_self _ _ _
  have hlo : getField (Json.obj [("latitude", Json.num a), ("longitude", Json.num b)])
      "longitude" = some (Json.num b) := by
    show List.lookup "longitude" _ = _
    rw [lookup_cons_ne _ _ _ _ (by decide)]
    exact lookup_cons_self _ _ _
  have hla2 : getField (Json.obj [("latitude", Json.num a2), ("longitude", Json.num b2)])
      "latitude" = some (Json.num a2) := by
    show List.lookup "latitude" _ = _
    exact lookup_cons_self _ _ _
  have hlo2 : getField (Json.obj [("latitude", Json.num a2), ("longitude", Json.num b2)])
      "longitude" = some (Json.num b2) := by
    show List.lookup "longitude" _ = _
    rw [lookup_cons_ne _ _ _ _ (by decide)]
    exact lookup_cons_self _ _ _
  unfold generateCacheKey
  rw [hla, hlo, hla2, hlo2]
  simp [roundCoordinates, objFields, objUpsert]
  rw [h1, h2]

theorem round_lat_collapse :
    roundCoordinate (roundCoordinate (40.71276 : ℚ) 3) 2 =
      roundCoordinate (roundCoordinate (40.713 : ℚ) 3) 2 := by
  norm_num [roundCoordinate, mathRound]

theorem round_lng_collapse :
    roundCoordinate (roundCoordinate (-74.00594 : ℚ) 3) 2 =
      roundCoordinate (roundCoordinate (-74.006 : ℚ) 3) 2 := by
  norm_num [roundCoordinate, mathRound]

theorem round_lat_canonical :
    roundCoordinate (roundCoordinate (40.71276 : ℚ) 3) 2 =
      roundCoordinate (40.71 : ℚ) 2 := by
  norm_num [roundCoordinate, mathRound]

theorem round_lng_canonical :
    roundCoordinate (roundCoordinate (-74.00594 : ℚ) 3) 2 =
      roundCoordinate (-74.01 : ℚ) 2 := by
  norm_num [roundCoordinate, mathRound]

/-- C2: coordinate pairs that agree after the pipeline's quantization
(3 decimals in `validateCoordinates`, then 2 decimals in
`generateCacheKey`) derive the same reverse-geocode cache key; in
particular the requests `(40.71276, -74.00594)` and `(40.713, -74.006)`
derive the same key, which is the key for `(40.71, -74.01)`. -/
theorem reverse_quantization_collapse :
    (∀ (lat1 lng1 lat2 lng2 : ℚ) (u : Option String),
      roundCoordinate (roundCoordinate lat1 3) 2 =
        roundCoordinate (roundCoordinate lat2 3) 2 →
      roundCoordinate (roundCoordinate lng1 3) 2 =
        roundCoordinate (roundCoordinate lng2 3) 2 →
      reverseGeocodeCacheKey lat1 lng1 u = reverseGeocodeCacheKey lat2 lng2 u) ∧
    reverseGeocodeCacheKey (40.71276 : ℚ) (-74.00594 : ℚ) none =
      reverseGeocodeCacheKey (40.713 : ℚ) (-74.006 : ℚ) none ∧
    reverseGeocodeCacheKey (40.71276 : ℚ) (-74.00594 : ℚ) none =
      generateCacheKey "reverse-geocode"
        (Json.obj [("latitude", Json.num (40.71 : ℚ)),
          ("longitude", Json.num (-74.01 : ℚ))]) none := by
  have hgen : ∀ (lat1 lng1 lat2 lng2 : ℚ) (u : Option String),
      roundCoordinate (roundCoordinate lat1 3) 2 =
        roundCoordinate (roundCoordinate lat2 3) 2 →
      roundCoordinate (roundCoordinate lng1 3) 2 =
        roundCoordinate (roundCoordinate lng2 3) 2 →
      reverseGeocodeCacheKey lat1 lng1 u = reverseGeocodeCacheKey lat2 lng2 u := by
    intro lat1 lng1 lat2 lng2 u h1 h2
    simp only [reverseGeocodeCacheKey, roundCoordinates]
    exact generateCacheKey_reverse_congr _ _ _ _ u h1 h2
  refine ⟨hgen, hgen _ _ _ _ none round_lat_collapse round_lng_collapse, ?_⟩
  simp only [reverseGeocodeCacheKey, roundCoordinates]
  exact generateCacheKey_reverse_congr _ _ _ _ none round_lat_canonical round_lng_canonical

/-- C2 witness: the concrete pair of near-identical requests collapses
to one key (also under a user scope). -/
theorem reverse_quantization_collapse_witness :
    reverseGeocodeCacheKey (40.71276 : ℚ) (-74.00594 : ℚ) (some "u9") =
      reverseGeocodeCacheKey (40.713 : ℚ) (-74.006 : ℚ) (some "u9") :=
  reverse_quantization_collapse.1 40.71276 (-74.00594) 40.713 (-74.006) (some "u9")
    round_lat_collapse round_lng_collapse
